import Mathlib

/-!
Verification of the BVTooltip trigger/lifecycle controller
(`src/unnamed/part_000`, a renderless Vue instance) against its
natural-language specification.

The development shallowly embeds the controller's methods as pure Lean
functions over an explicit `World` state (controller fields, the set of
pending timers of the host event loop, and a list of uncaught exceptions).
JavaScript strings are modelled as Lean `String`s, JS `split(/\s+/)`,
`join(' ')`, `trim()`, `parseInt` and `toLowerCase()` are modelled
character-exactly, and JS timer handles (`setTimeout` / `setInterval` /
`clearTimeout` / `clearInterval`) are modelled by numeric ids in a pending
list.  Dynamic object properties that the source spells in several ways
(`this.hoverTimeout`, `this.$hoverTimeout`, `this.$_hoverTimeout`,
`this.$_hoverTimout`, `this.$_visibleInterval`, `this.visibleInterval`)
are modelled as distinct slots, exactly as a JS object would hold them.
-/

namespace BVTooltip

/-! ### Character-level JS string primitives -/

/-- Collapse every maximal run of whitespace characters into a single
space character, tracking whether the previous character was part of a
whitespace run.  Auxiliary for the JS `String.prototype.split(/\s+/)`
semantics: splitting on `/\s+/` is splitting on `' '` after collapsing. -/
def collapseWsAux : Bool → List Char → List Char
  | _, [] => []
  | prevWs, c :: cs =>
    if c.isWhitespace then
      if prevWs then collapseWsAux true cs
      else ' ' :: collapseWsAux true cs
    else c :: collapseWsAux false cs

def collapseWs (cs : List Char) : List Char := collapseWsAux false cs

/-- Split on single `' '` characters, keeping empty pieces, as
`String.prototype.split(' ')` does: returns (first piece, later pieces). -/
def splitSpAux : List Char → List Char × List (List Char)
  | [] => ([], [])
  | c :: cs =>
    let r := splitSpAux cs
    if c = ' ' then ([], r.1 :: r.2) else (c :: r.1, r.2)

def splitSpChars (cs : List Char) : List (List Char) :=
  (splitSpAux cs).1 :: (splitSpAux cs).2

/-- JS `s.split(/\s+/)`: split on maximal whitespace runs; a leading or
trailing run (and the empty string) produce empty-string pieces, exactly
as the JS regex split does. -/
def jsSplitWs (s : String) : List String :=
  (splitSpChars (collapseWs s.data)).map (fun l => String.mk l)

/-- JS `Array.prototype.join(' ')` at the character level. -/
def joinSpChars : List (List Char) → List Char
  | [] => []
  | t :: ts =>
    match ts with
    | [] => t
    | _ :: _ => t ++ ' ' :: joinSpChars ts

/-- JS `Array.prototype.join(' ')` on strings. -/
def jsJoinSp (l : List String) : String :=
  String.mk (joinSpChars (l.map String.data))

/-- JS `String.prototype.trim()`: drop whitespace from both ends. -/
def jsTrimChars (cs : List Char) : List Char :=
  ((cs.dropWhile Char.isWhitespace).reverse.dropWhile Char.isWhitespace).reverse

def jsTrim (s : String) : String :=
  String.mk (jsTrimChars s.data)

/-- Value of a list of decimal digit characters. -/
def digitsToNat (ds : List Char) : Nat :=
  ds.foldl (fun a c => a * 10 + (c.toNat - 48)) 0

/-- JS `parseInt(s, 10)`: skip leading whitespace, optional sign, then the
maximal run of decimal digits; `none` models `NaN` (no digits). -/
def jsParseInt (s : String) : Option Int :=
  let cs := s.data.dropWhile Char.isWhitespace
  let signAndRest : Int × List Char :=
    match cs with
    | '-' :: r => (-1, r)
    | '+' :: r => (1, r)
    | _ => (1, cs)
  let ds := signAndRest.2.takeWhile Char.isDigit
  if ds = [] then none else some (signAndRest.1 * (digitsToNat ds : Int))

/-! ### Configuration model and the two normalizers -/

/-- A JS value that can sit in a field of the `delay` record. -/
inductive JsVal
  | num (n : Int)
  | str (s : String)
  | undef
deriving DecidableEq, Repr

/-- The raw `delay` prop: `Number`, `String`, plain object, or anything
else (the prop's declared types; anything else still flows through the
same `computedDelay` chain of `isNumber`/`isString`/`isPlainObject`). -/
inductive DelayConfig
  | num (n : Int)
  | str (s : String)
  | obj (showField hideField : JsVal)
  | other
deriving DecidableEq, Repr

/-- `computedDelay` (source lines 175-187):
```
const delay = { show: 0, hide: 0 }
if (isNumber(this.delay)) {
  delay.show = delay.hide = this.delay
} else if (isString(this.delay)) {
  delay.show = delay.hide = Math.max(parseInt(this.delay, 10) || 0, 0)
} else if (isPlainObject(this.delay)) {
  delay.show = isNumber(this.delay.show) ? this.delay.show : delay.show
  delay.hide = isNumber(this.delay.hide) ? this.delay.hide : delay.hide
}
return delay
```
The result pair is (`show`, `hide`). -/
def computedDelay : DelayConfig → Int × Int
  | .num n => (n, n)
  | .str s =>
    let v := max ((jsParseInt s).getD 0) 0
    (v, v)
  | .obj sf hf =>
    (match sf with | .num n => n | _ => 0,
     match hf with | .num n => n | _ => 0)
  | .other => (0, 0)

/-- `computedTriggers` (source lines 188-195):
```
return concat(this.triggers)
  .filter(Boolean)
  .join(' ')
  .toLowerCase()
  .split(/\s+/)
```
The raw `triggers` prop is a string or an array of strings; `concat`
wraps a lone string into a one-element array, so the input is modelled
as the resulting `List String`.  The only falsy string is `""`. -/
def jsToLower (s : String) : String :=
  String.mk (s.data.map Char.toLower)

def computedTriggers (triggers : List String) : List String :=
  jsSplitWs (jsToLower (jsJoinSp (triggers.filter (fun s => s ≠ ""))))

/-- `computedId` (source lines 172-174): `__bv_${this.templateType}_${this._uid}__`
with `templateType = 'tooltip'`. -/
def computedId (uid : Nat) : String :=
  "__bv_tooltip_" ++ toString uid ++ "__"

/-! ### aria-describedby attribute manipulation

`addAriaDescribedby` / `removeAriaDescribedby` (source lines 514-542) read
and write the host's `aria-describedby` attribute; they are embedded as
pure functions from the attribute's current value (`none` = attribute
absent, `getAttr` then yields a falsy value and `|| ''` supplies `""`)
to its new value. -/

/-- `addAriaDescribedby` (source lines 514-525):
```
let desc = getAttr(target, 'aria-describedby') || ''
desc = desc.split(/\s+/).concat(this.computedId).join(' ').trim()
setAttr(target, 'aria-describedby', desc)
```
Returns the value written. -/
def addAriaDescribedby (cid : String) (pre : Option String) : String :=
  jsTrim (jsJoinSp (jsSplitWs (pre.getD "") ++ [cid]))

/-- `removeAriaDescribedby` (source lines 526-542):
```
let desc = getAttr(target, 'aria-describedby') || ''
desc = desc.split(/\s+/).filter(d => d !== this.computedId).join(' ').trim()
if (desc) { setAttr(target, 'aria-describedby', desc) } else { removeAttr(target, 'aria-describedby') }
```
`none` in the result models the attribute being removed. -/
def removeAriaDescribedby (cid : String) (cur : Option String) : Option String :=
  let desc := jsTrim (jsJoinSp ((jsSplitWs (cur.getD "")).filter (fun d => d ≠ cid)))
  if desc = "" then none else some desc

/-! ### The controller state machine

The controller is a renderless Vue instance.  Its reactive data, its
non-reactive timer-handle properties and the host event loop are embedded
as one explicit `World` state; every method of the source becomes a pure
`World → World` function.  DOM facts the methods consult (element found
by id, visibility, disabled state, dropdown/modal membership) and the
outcome of the cancelable `BvEvent` emissions are supplied by an `Env`
parameter; the listener registrations performed through `eventOn` /
`$on` are tracked as flags/lists. -/

/-- `activeTrigger` data field (source lines 131-136). -/
structure ActiveTrigger where
  hover : Bool
  click : Bool
  focus : Bool
  manual : Bool
deriving DecidableEq, Repr

/-- `hoverState` values: `''`, `'in'`, `'out'`. -/
inductive HoverState
  | hnone
  | hin
  | hout
deriving DecidableEq, Repr

/-- The DOM event types the controller handles. -/
inductive EvtType
  | click
  | mouseenter
  | mouseleave
  | focusin
  | focusout
deriving DecidableEq, Repr

/-- A DOM event as seen by `handleEvent`: its type plus, for `focusout`,
the four containment facts the handler checks about `evt.target` and
`evt.relatedTarget` against the tip element and the trigger element. -/
structure Evt where
  type : EvtType
  tipContainsTarget : Bool := false
  tipContainsRelated : Bool := false
  targetContainsTarget : Bool := false
  targetContainsRelated : Bool := false
deriving DecidableEq, Repr

/-- The DOM facts about a host (trigger) element that the controller
consults through the dom utilities. -/
structure TargetEl where
  inDom : Bool := true
  visible : Bool := true
  disabled : Bool := false
  isDropdown : Bool := false
  dropdownMenuOpen : Bool := false
  inModal : Bool := false
  hasVue : Bool := false
deriving DecidableEq, Repr

/-- The raw `target` prop: `null`, an HTML id string, a direct element
reference, or a component reference (whose `$el` is an element). -/
inductive TargetConfig
  | nul
  | str (s : String)
  | element
  | compRef
deriving DecidableEq, Repr

/-- The static configuration (props) a controller instance reads. -/
structure Config where
  triggers : List String
  delay : DelayConfig
  target : TargetConfig
deriving Repr

/-- External facts: id lookup (`getById`) and the outcomes of the
cancelable `show` / `hide` BvEvent emissions, plus touch capability. -/
structure Env where
  byId : String → Option TargetEl
  showCancelled : Bool := false
  hideCancelled : Bool := false
  isTouch : Bool := false

/-- The value of `this.target ? this.target.$el || this.target : null`
(source line 454).  A string target is falsy when empty. -/
inductive RawTarget
  | rstr (s : String)
  | relem
  | rnull
deriving DecidableEq, Repr

def rawTargetVal : TargetConfig → RawTarget
  | .nul => .rnull
  | .str s => if s = "" then .rnull else .rstr s
  | .element => .relem
  | .compRef => .relem

/-- `target.replace(/^#/, '')`: strip one leading `#`. -/
def stripHash (s : String) : String :=
  match s.data with
  | '#' :: r => String.mk r
  | _ => s

/-- `getTarget` (source lines 452-459):
```
let target = this.target ? this.target.$el || this.target : null
target = isString(target) ? getById(target.replace(/^#/, '')) : null
return isElement(target) ? target : null
```
Only a string value reaches `getById`; every non-string raw value is
mapped to `null` by the second line. -/
def getTarget (cfg : Config) (env : Env) : Option TargetEl :=
  match rawTargetVal cfg.target with
  | .rstr s => env.byId (stripHash s)
  | _ => none

/-- `isInModal` (source lines 495-498): `target && closest(MODAL_SELECTOR, target)`. -/
def isInModal (cfg : Config) (env : Env) : Bool :=
  match getTarget cfg env with
  | some t => t.inModal
  | none => false

/-- `dropdownOpen` (source lines 504-508):
`this.isDropdown() && target && select(DROPDOWN_OPEN_SELECTOR, target)`,
where `isDropdown` is `target && hasClass(target, 'dropdown')`. -/
def dropdownOpen (cfg : Config) (env : Env) : Bool :=
  match getTarget cfg env with
  | some t => t.isDropdown && t.dropdownMenuOpen
  | none => false

/-- `isVisible(this.getTarget())` — `isVisible(null)` is `false`. -/
def targetVisible (cfg : Config) (env : Env) : Bool :=
  match getTarget cfg env with
  | some t => t.visible
  | none => false

/-- What each pending timer's callback is (the closures passed to
`setTimeout` in `enter` / `leave` and to `setInterval` in `visibleCheck`). -/
inductive TimerKind
  | showT
  | hideT
  | visPoll
deriving DecidableEq, Repr

/-- A scheduled timer of the host event loop.  `period = some p` models a
`setInterval` handle that reschedules itself every `p` ms. -/
structure Timer where
  tid : Nat
  fireAt : Nat
  kind : TimerKind
  period : Option Nat
deriving DecidableEq, Repr

/-- The overlay template instance (`this.$_tip`); `isHiding` records that
`$_tip.hide()` has been called on it. -/
structure Tip where
  isHiding : Bool
deriving DecidableEq, Repr

/-- The controller's mutable fields.  The five timer-handle properties are
kept separate because the source spells them five different ways:
`created` initializes `$_hoverTimeout`/`$_visibleInterval`, `enter` uses
`hoverTimeout`, `leave` assigns `$hoverTimeout`, `destroyTemplate` nulls
`$_hoverTimout`, and `visibleCheck` assigns `visibleInterval` while
clearing `$_visibleInterval`. -/
structure Ctrl where
  activeTrigger : ActiveTrigger := ⟨false, false, false, false⟩
  hoverState : HoverState := .hnone
  localShow : Bool := false
  enabled : Bool := true
  tip : Option Tip := none
  hoverTimeout : Option Nat := none        -- this.hoverTimeout
  dHoverTimeout : Option Nat := none       -- this.$hoverTimeout
  uHoverTimeout : Option Nat := none       -- this.$_hoverTimeout
  uHoverTimout : Option Nat := none        -- this.$_hoverTimout
  uVisibleInterval : Option Nat := none    -- this.$_visibleInterval
  visibleInterval : Option Nat := none     -- this.visibleInterval
  rootListenerOn : Bool := false
  domListeners : List EvtType := []
  modalOn : Bool := false
  dropdownOn : Bool := false
  touchOn : Bool := false
deriving DecidableEq, Repr

/-- The whole world: current time, the timer id source, the pending
timers of the event loop, the controller, and the uncaught exceptions
thrown so far (a JS event loop reports them and keeps going). -/
structure World where
  now : Nat := 0
  nextId : Nat := 0
  pending : List Timer := []
  ctrl : Ctrl := {}
  errors : List String := []
deriving DecidableEq, Repr

def World.upd (w : World) (f : Ctrl → Ctrl) : World :=
  { w with ctrl := f w.ctrl }

/-- `clearTimeout(h)` / `clearInterval(h)`: drop the pending timer whose
id is `h`; a `null`/`undefined` or stale handle is a no-op. -/
def World.clearTimer (w : World) (h : Option Nat) : World :=
  match h with
  | none => w
  | some i => { w with pending := w.pending.filter (fun t => t.tid ≠ i) }

/-- `setTimeout(cb, d)` / `setInterval(cb, p)`: allocate a fresh handle
and add the timer; a negative delay is clamped to 0, as the platform
clamps it. -/
def World.schedule (w : World) (k : TimerKind) (d : Int) (period : Option Nat) :
    Nat × World :=
  (w.nextId,
   { w with
     nextId := w.nextId + 1,
     pending := w.pending ++ [⟨w.nextId, w.now + d.toNat, k, period⟩] })

def World.pushError (w : World) (m : String) : World :=
  { w with errors := w.errors ++ [m] }

/-- `isWithActiveTrigger` (source lines 196-203): OR of the four flags. -/
def isWithActiveTrigger (w : World) : Bool :=
  w.ctrl.activeTrigger.hover || w.ctrl.activeTrigger.click ||
  w.ctrl.activeTrigger.focus || w.ctrl.activeTrigger.manual

/-- `clearActiveTriggers` (source lines 509-513). -/
def clearActiveTriggers (w : World) : World :=
  w.upd fun c => { c with activeTrigger := ⟨false, false, false, false⟩ }

variable (cfg : Config) (env : Env)

/-- `setRootListener` (source lines 617-628): `$on`/`$off` the four
`bv::{hide|show|disable|enable}::tooltip` root listeners. -/
def setRootListener (onFlag : Bool) (w : World) : World :=
  w.upd fun c => { c with rootListenerOn := onFlag }

/-- `setModalListener` (source lines 659-665). -/
def setModalListener (onFlag : Bool) (w : World) : World :=
  if isInModal cfg env then w.upd fun c => { c with modalOn := onFlag } else w

/-- `setDropdownListener` (source lines 679-693).  Note the guard tests
`!this.isDropdown` — a reference to the method, not a call — which is
always truthy, so that disjunct never aborts. -/
def setDropdownListener (onFlag : Bool) (w : World) : World :=
  match getTarget cfg env with
  | none => w
  | some t => if t.hasVue then w.upd fun c => { c with dropdownOn := onFlag } else w

/-- `setOnTouchStartListener` (source lines 666-678). -/
def setOnTouchStartListener (onFlag : Bool) (w : World) : World :=
  if env.isTouch then w.upd fun c => { c with touchOn := onFlag } else w

/-- `visibleCheck` (source lines 641-658):
```
clearInterval(this.$_visibleInterval)
this.$_visibleInterval = null
if (on) {
  this.visibleInterval = setInterval(() => { ... this.forceHide() ... }, 100)
}
```
The interval handle is *assigned to* `this.visibleInterval` but the
function only ever *clears* `this.$_visibleInterval`. -/
def visibleCheck (onFlag : Bool) (w : World) : World :=
  let w := w.clearTimer w.ctrl.uVisibleInterval
  let w := w.upd fun c => { c with uVisibleInterval := none }
  if onFlag then
    let (i, w) := w.schedule .visPoll 100 (some 100)
    w.upd fun c => { c with visibleInterval := some i }
  else w

/-- `setWhileOpenListeners` (source lines 629-640). -/
def setWhileOpenListeners (onFlag : Bool) (w : World) : World :=
  let w := setModalListener cfg env onFlag w
  let w := setDropdownListener cfg env onFlag w
  let w := visibleCheck onFlag w
  setOnTouchStartListener env onFlag w

/-- `createTemplateAndShow` (source lines 259-292): instantiates the
template (`this.$_tip = new Template({...})`); the placement/container/
boundary snapshot is not modelled. -/
def createTemplateAndShow (w : World) : World :=
  w.upd fun c => { c with tip := some ⟨false⟩ }

/-- `hideTemplate` (source lines 293-298): `this.$_tip && this.$_tip.hide()`. -/
def hideTemplate (w : World) : World :=
  match w.ctrl.tip with
  | some _ => w.upd fun c => { c with tip := some ⟨true⟩ }
  | none => w

/-- `destroyTemplate` (source lines 299-319).  Note the reset line is
`this.$_hoverTimout = null` — a slot distinct from the `$_hoverTimeout`
it just cleared. -/
def destroyTemplate (w : World) : World :=
  let w := setWhileOpenListeners cfg env false w
  let w := w.clearTimer w.ctrl.uHoverTimeout
  let w := w.upd fun c => { c with uHoverTimout := none }
  let w := clearActiveTriggers w
  let w := w.upd fun c => { c with hoverState := .hnone, localShow := false }
  -- try { this.$_tip && this.$_tip.$destroy() } catch {} — cannot throw
  w.upd fun c => { c with tip := none }

/-- `show` (source lines 326-356).  On default-prevention the source
calls `this.destroyTip()`; no method of that name exists on the instance
(the teardown method is `destroyTemplate`), so the property lookup gives
`undefined` and the call throws a `TypeError`. -/
def showTooltip (w : World) : World :=
  match getTarget cfg env with
  | none => w
  | some t =>
    if ¬t.inDom || ¬t.visible || dropdownOpen cfg env then w
    else if env.showCancelled then
      w.pushError "TypeError: this.destroyTip is not a function"
    else
      -- this.fixTitle() — empty body in the source
      -- this.addAriaDescribedby() — attribute effect modelled separately
      let w := w.upd fun c => { c with localShow := true }
      createTemplateAndShow w

/-- `hide` (source lines 357-382).  The BvEvent is cancelable iff
`!force`, so default-prevention is only possible then. -/
def hide (force : Bool) (w : World) : World :=
  if w.ctrl.tip.isNone || ¬w.ctrl.localShow then w
  else if env.hideCancelled && ¬force then w
  else
    let w := hideTemplate w
    let w := clearActiveTriggers w
    w.upd fun c => { c with hoverState := .hnone }

/-- `forceHide` (source lines 383-400). -/
def forceHide (w : World) : World :=
  if w.ctrl.tip.isNone || ¬w.ctrl.localShow then w
  else
    let w := setWhileOpenListeners cfg env false w
    let w := w.clearTimer w.ctrl.hoverTimeout
    let w := w.upd fun c => { c with hoverTimeout := none, hoverState := .hnone }
    let w := clearActiveTriggers w
    hide env true w

/-- `enter` (source lines 820-841).  The show-delay timer handle is
stored in `this.hoverTimeout`; `clearTimeout` is applied to
`this.hoverTimeout` as well. -/
def enter (evt : Option EvtType) (w : World) : World :=
  let w : World := match evt with
    | some e =>
      if e = .focusin then
        w.upd fun c => { c with activeTrigger := { c.activeTrigger with focus := true } }
      else
        w.upd fun c => { c with activeTrigger := { c.activeTrigger with hover := true } }
    | none => w
  if w.ctrl.localShow || w.ctrl.hoverState = .hin then
    w.upd fun c => { c with hoverState := .hin }
  else
    let w := w.clearTimer w.ctrl.hoverTimeout
    let w := w.upd fun c => { c with hoverState := .hin }
    if (computedDelay cfg.delay).1 = 0 then showTooltip cfg env w
    else
      let (i, w) := w.schedule .showT (computedDelay cfg.delay).1 none
      w.upd fun c => { c with hoverTimeout := some i }

/-- `leave` (source lines 842-867).  `clearTimeout` is applied to
`this.hoverTimeout` but the hide-delay timer handle is assigned to
`this.$hoverTimeout`. -/
def leave (evt : Option EvtType) (w : World) : World :=
  let w : World := match evt with
    | some e =>
      let w :=
        if e = .focusout then
          w.upd fun c => { c with activeTrigger := { c.activeTrigger with focus := false } }
        else
          w.upd fun c => { c with activeTrigger := { c.activeTrigger with hover := false } }
      if e = .focusout && (computedTriggers cfg.triggers).contains "blur" then
        w.upd fun c =>
          { c with activeTrigger := { c.activeTrigger with click := false, hover := false } }
      else w
    | none => w
  if isWithActiveTrigger w then w
  else
    let w := w.clearTimer w.ctrl.hoverTimeout
    let w := w.upd fun c => { c with hoverState := .hout }
    if (computedDelay cfg.delay).2 = 0 then hide env false w
    else
      let (i, w) := w.schedule .hideT (computedDelay cfg.delay).2 none
      w.upd fun c => { c with dHoverTimeout := some i }

/-- `click` (source lines 794-805). -/
def click (w : World) : World :=
  if ¬w.ctrl.enabled || dropdownOpen cfg env then w
  else
    let w := w.upd fun c =>
      { c with activeTrigger := { c.activeTrigger with click := ¬c.activeTrigger.click } }
    if isWithActiveTrigger w then enter cfg env none w else leave cfg env none w

/-- `toggle` (source lines 806-819). -/
def toggle (w : World) : World :=
  if ¬w.ctrl.enabled || dropdownOpen cfg env then w
  else if w.ctrl.localShow then leave cfg env none w else enter cfg env none w

/-- `handleEvent` (source lines 697-753). -/
def handleEvent (e : Evt) (w : World) : World :=
  match getTarget cfg env with
  | none => w
  | some t =>
    if t.disabled || ¬w.ctrl.enabled || dropdownOpen cfg env then w
    else
      let triggers := computedTriggers cfg.triggers
      if e.type = .click ∧ triggers.contains "click" then click cfg env w
      else if e.type = .mouseenter ∧ triggers.contains "hover" then
        enter cfg env (some .mouseenter) w
      else if e.type = .mouseleave ∧ triggers.contains "hover" then
        leave cfg env (some .mouseleave) w
      else if e.type = .focusin ∧ triggers.contains "focus" then
        enter cfg env (some .focusin) w
      else if e.type = .focusout ∧
              (triggers.contains "focus" || triggers.contains "blur") then
        let tipExists := w.ctrl.tip.isSome
        if (tipExists && e.tipContainsTarget && e.targetContainsRelated) ||
           (tipExists && e.targetContainsTarget && e.tipContainsRelated) ||
           (tipExists && e.tipContainsTarget && e.tipContainsRelated) ||
           (e.targetContainsTarget && e.targetContainsRelated) then
          w
        else leave cfg env (some .focusout) w
      else w

/-- `onTemplateShow` (source lines 414-418). -/
def onTemplateShow (w : World) : World :=
  setWhileOpenListeners cfg env true w

/-- `onTemplateShown` (source lines 419-428). -/
def onTemplateShown (w : World) : World :=
  let prev := w.ctrl.hoverState
  let w := w.upd fun c => { c with hoverState := .hnone }
  if prev = .hout then leave cfg env none w else w

/-- `onTemplateHide` (source lines 429-433). -/
def onTemplateHide (w : World) : World :=
  setWhileOpenListeners cfg env false w

/-- `onTemplateHidden` (source lines 434-443); the aria/title restoration
is modelled separately as the pure attribute functions. -/
def onTemplateHidden (w : World) : World :=
  destroyTemplate cfg env w

/-- The DOM listeners `listen` registers for one canonical trigger token
(source lines 590-603). -/
def domEventsFor (trigger : String) : List EvtType :=
  if trigger = "click" then [.click]
  else if trigger = "focus" then [.focusin, .focusout]
  else if trigger = "blur" then [.focusout]
  else if trigger = "hover" then [.mouseenter, .mouseleave]
  else []

/-- `listen` (source lines 579-604). -/
def listen (w : World) : World :=
  match getTarget cfg env with
  | none => w
  | some _ =>
    let w := setRootListener true w
    w.upd fun c =>
      { c with domListeners := (computedTriggers cfg.triggers).flatMap domEventsFor }

/-- `unListen` (source lines 605-616): the per-event `eventOff` calls are
guarded by `target &&`, the root listeners are removed unconditionally. -/
def unListen (w : World) : World :=
  let w : World := match getTarget cfg env with
    | some _ => w.upd fun c => { c with domListeners := [] }
    | none => w
  setRootListener false w

/-- The body of the option named `beforDestroy` (source lines 240-250).
Its last statement calls `this.destroyTip()`, a method that does not
exist on the instance, so the body throws a `TypeError` after the
earlier statements have run. -/
def beforDestroyBody (w : World) : World :=
  let w := unListen cfg env w
  let w := setWhileOpenListeners cfg env false w
  let w := w.clearTimer w.ctrl.uHoverTimeout
  let w := w.upd fun c => { c with uHoverTimeout := none }
  w.pushError "TypeError: this.destroyTip is not a function"

/-- The lifecycle-hook option names the component defines
(source lines 220, 235, 240). -/
def definedLifecycleHooks : List String := ["created", "deactivated", "beforDestroy"]

/-- The hook names Vue 2 invokes while tearing an instance down via
`$destroy`. -/
def destroyHookNames : List String := ["beforeDestroy", "destroyed"]

/-- Whether any teardown hook of the component runs on `$destroy`. -/
def cleanupRunsOnDestroy : Bool :=
  definedLifecycleHooks.any (fun h => destroyHookNames.contains h)

/-- The effect of `$destroy` on the modelled state: the component's
teardown code runs only if one of its hook options carries a name Vue
invokes on destroy. -/
def vueDestroy (w : World) : World :=
  if cleanupRunsOnDestroy then beforDestroyBody cfg env w else w

/-- Run the callback of a fired timer (the closures built at source
lines 835-839, 861-865 and 648-656).  Both delay callbacks re-check
`hoverState` before acting; the interval callback force-hides when the
target stopped being visible while `localShow` still holds. -/
def runCallback (k : TimerKind) (w : World) : World :=
  match k with
  | .showT => if w.ctrl.hoverState = .hin then showTooltip cfg env w else w
  | .hideT => if w.ctrl.hoverState = .hout then hide env false w else w
  | .visPoll =>
    if w.ctrl.tip.isSome && ¬targetVisible cfg env && w.ctrl.localShow then
      forceHide cfg env w
    else w

/-- The first pending timer (in insertion order) among those with the
minimal fire time not exceeding `t`. -/
def earliestDue (t : Nat) (pending : List Timer) : Option Timer :=
  pending.foldl
    (fun acc tm =>
      if tm.fireAt ≤ t then
        match acc with
        | none => some tm
        | some b => if tm.fireAt < b.fireAt then some tm else acc
      else acc)
    none

/-- Remove a fired timer from the pending list, rescheduling it when it
is an interval, and move the clock to its fire time. -/
def World.fire (w : World) (tm : Timer) : World :=
  let rest := w.pending.filter (fun x => x.tid ≠ tm.tid)
  let rest :=
    match tm.period with
    | some p => rest ++ [{ tm with fireAt := tm.fireAt + p }]
    | none => rest
  { w with now := tm.fireAt, pending := rest }

/-- Drive the event loop up to time `t`, firing every due timer in fire
order (fuelled; the fuel is always sufficient for the finite traces
considered here). -/
def advanceToFuel : Nat → Nat → World → World
  | 0, t, w => { w with now := t }
  | fuel + 1, t, w =>
    match earliestDue t w.pending with
    | none => { w with now := t }
    | some tm => advanceToFuel fuel t (runCallback cfg env tm.kind (w.fire tm))

def advanceTo (t : Nat) (w : World) : World :=
  advanceToFuel cfg env (w.pending.length + t + 1) t w

/-! ### Concrete scenario environments -/

/-- An environment whose id lookup finds a host element that is attached,
visible, enabled and not a dropdown, and where no BvEvent is cancelled. -/
def goodEnv : Env := { byId := fun _ => some {} }

/-- triggers `"hover"`, delay `{show: 100, hide: 50}`, a string target. -/
def hoverCfg : Config :=
  { triggers := ["hover"], delay := .obj (.num 100) (.num 50), target := .str "t" }

/-- triggers `"hover focus"`, delay `{show: 100, hide: 50}`. -/
def hoverFocusCfg : Config :=
  { triggers := ["hover focus"], delay := .obj (.num 100) (.num 50), target := .str "t" }

/-- The world reached from the freshly created controller by a
`mouseleave` at t=0 followed by a `mouseenter` at t=10. -/
def leaveEnterTrace : World :=
  handleEvent hoverCfg goodEnv { type := .mouseenter }
    (advanceTo hoverCfg goodEnv 10
      (handleEvent hoverCfg goodEnv { type := .mouseleave } {}))

/-- Claim C1 — the claim states that each `enter`/`leave` cancels the
previously scheduled delay timer before scheduling a new one, so no two
delay timers coexist.  The code refutes it: `leave` stores the hide
timer in `this.$hoverTimeout` while both `enter` and `leave` only ever
`clearTimeout(this.hoverTimeout)`, so after a `mouseleave` (t=0) and a
`mouseenter` (t=10) with delay `{show:100, hide:50}` the hide timer
(id 0, due t=50) and the new show timer (id 1, due t=110) are pending
simultaneously. -/
theorem two_delay_timers_coexist :
    leaveEnterTrace.pending.map Timer.kind = [.hideT, .showT] ∧
    leaveEnterTrace.pending.length = 2 ∧
    leaveEnterTrace.ctrl.dHoverTimeout = some 0 ∧
    leaveEnterTrace.ctrl.hoverTimeout = some 1 := by
  decide

/-- The world after `mouseenter` at t=0 on a fresh controller with
triggers `"hover focus"` and delay `{show:100, hide:50}`. -/
def enterAt0 : World :=
  handleEvent hoverFocusCfg goodEnv { type := .mouseenter } {}

/-- The world after additionally processing `mouseleave` at t=60. -/
def leaveAt60 : World :=
  handleEvent hoverFocusCfg goodEnv { type := .mouseleave }
    (advanceTo hoverFocusCfg goodEnv 60 enterAt0)

/-- Claim C2 — with triggers `"hover focus"` and delay
`{show:100, hide:50}`: after `mouseenter` at t=0 the overlay is not
shown at t=50 but is shown at t=100; a `mouseleave` at t=60 cancels the
pending show timer (only the hide timer remains pending) and the overlay
never appears (checked after every remaining timer has fired); and the
delayed show/hide callbacks re-check `hoverState` before acting, so a
stale timer never acts. -/
theorem hover_focus_delay_scenario :
    (advanceTo hoverFocusCfg goodEnv 50 enterAt0).ctrl.localShow = false ∧
    (advanceTo hoverFocusCfg goodEnv 100 enterAt0).ctrl.localShow = true ∧
    (advanceTo hoverFocusCfg goodEnv 100 enterAt0).ctrl.tip.isSome = true ∧
    leaveAt60.pending.map Timer.kind = [.hideT] ∧
    (∀ t ∈ [60, 100, 110, 1000],
      (advanceTo hoverFocusCfg goodEnv t leaveAt60).ctrl.localShow = false ∧
      (advanceTo hoverFocusCfg goodEnv t leaveAt60).ctrl.tip = none) ∧
    (∀ cfg : Config, ∀ env : Env, ∀ w : World,
      w.ctrl.hoverState ≠ .hin → runCallback cfg env .showT w = w) ∧
    (∀ cfg : Config, ∀ env : Env, ∀ w : World,
      w.ctrl.hoverState ≠ .hout → runCallback cfg env .hideT w = w) := by
  refine ⟨by decide, by decide, by decide, by decide, by decide, ?_, ?_⟩
  · intro cfg env w h
    simp [runCallback, h]
  · intro cfg env w h
    simp [runCallback, h]

/-- Witness for `hover_focus_delay_scenario`: the timer-callback
re-validation parts applied at the fresh world, whose `hoverState` is
`''`. -/
theorem hover_focus_delay_scenario_witness :
    runCallback hoverFocusCfg goodEnv .showT ({} : World) = ({} : World) ∧
    runCallback hoverFocusCfg goodEnv .hideT ({} : World) = ({} : World) :=
  ⟨hover_focus_delay_scenario.2.2.2.2.2.1 hoverFocusCfg goodEnv {} (by decide),
   hover_focus_delay_scenario.2.2.2.2.2.2 hoverFocusCfg goodEnv {} (by decide)⟩

/-- An environment in which the cancelable `show` BvEvent gets
default-prevented by a listener. -/
def cancelShowEnv : Env := { byId := fun _ => some {}, showCancelled := true }

/-- Claim C3 — the claim states that a default-prevented `show` tears
down any half-created overlay and throws nothing.  The code refutes it:
the cancellation branch calls `this.destroyTip()`, a method that does
not exist on the instance (the teardown method is named
`destroyTemplate`), so a `TypeError` is thrown and no teardown or state
change happens. -/
theorem cancelled_show_throws :
    (showTooltip hoverCfg cancelShowEnv {}).errors =
      ["TypeError: this.destroyTip is not a function"] ∧
    (showTooltip hoverCfg cancelShowEnv {}).ctrl = ({} : World).ctrl := by
  decide

/-- The world after the overlay's `show` lifecycle event (while-open
listeners enabled) followed by its `hide` lifecycle event (while-open
listeners disabled) — i.e. an open/close cycle of the listener tier. -/
def pollAfterClose : World :=
  onTemplateHide hoverCfg goodEnv (onTemplateShow hoverCfg goodEnv {})

/-- Claim C4 — the claim states the visibility-poll interval stops when
the while-open listeners are disabled.  The code refutes it:
`visibleCheck` stores the interval handle in `this.visibleInterval` but
clears `this.$_visibleInterval` (always null), so after enabling and
then disabling the while-open listeners the poll interval is still
pending, and it is still firing (rescheduling itself) long after. -/
theorem visibility_poll_survives_close :
    pollAfterClose.pending = [⟨0, 100, .visPoll, some 100⟩] ∧
    pollAfterClose.ctrl.visibleInterval = some 0 ∧
    pollAfterClose.ctrl.uVisibleInterval = none ∧
    ((advanceTo hoverCfg goodEnv 1000 pollAfterClose).pending.map Timer.kind
      = [.visPoll]) := by
  decide

/-- Claim C5 — the claim states that controller destruction unregisters
listeners, clears timers and tears down the overlay without raising.
The code refutes it twice over: the teardown option is spelled
`beforDestroy`, which is not a lifecycle hook name Vue invokes during
`$destroy`, so the cleanup body never runs and `$destroy` leaves every
listener, timer and overlay of the modelled state untouched; and even
when the body is invoked directly it throws a `TypeError` at its final
statement `this.destroyTip()` (no such method exists). -/
theorem destroy_skips_cleanup :
    cleanupRunsOnDestroy = false ∧
    (∀ cfg : Config, ∀ env : Env, ∀ w : World, vueDestroy cfg env w = w) ∧
    (beforDestroyBody hoverCfg goodEnv pollAfterClose).errors =
      ["TypeError: this.destroyTip is not a function"] ∧
    (beforDestroyBody hoverCfg goodEnv pollAfterClose).pending.map Timer.kind
      = [.visPoll] := by
  refine ⟨rfl, fun cfg env w => rfl, by decide, by decide⟩

/-- A configuration whose `target` prop is a direct element reference. -/
def elementTargetCfg : Config :=
  { triggers := ["hover"], delay := .num 0, target := .element }

/-- Claim C10 — a `target` whose raw value (or component `$el`) is not a
string makes `getTarget()` return `null` (the source maps every
non-string raw value to `null` before the `isElement` check), and then
`show()`, `listen()` and `handleEvent()` all return without any state
change. -/
theorem nonstring_target_noop (cfg : Config) (env : Env) (w : World) (e : Evt)
    (h : cfg.target = .element ∨ cfg.target = .compRef) :
    getTarget cfg env = none ∧ showTooltip cfg env w = w ∧
    listen cfg env w = w ∧ handleEvent cfg env e w = w := by
  have hg : getTarget cfg env = none := by
    rcases h with h | h <;> simp [getTarget, rawTargetVal, h]
  refine ⟨hg, ?_, ?_, ?_⟩ <;> simp [showTooltip, listen, handleEvent, hg]

/-- Witness for `nonstring_target_noop` at a concrete element-target
configuration, a concrete environment and the fresh world. -/
theorem nonstring_target_noop_witness :
    getTarget elementTargetCfg goodEnv = none ∧
    showTooltip elementTargetCfg goodEnv {} = ({} : World) ∧
    listen elementTargetCfg goodEnv {} = ({} : World) ∧
    handleEvent elementTargetCfg goodEnv { type := .click } {} = ({} : World) :=
  nonstring_target_noop elementTargetCfg goodEnv {} { type := .click } (Or.inl rfl)

/-! ### C6: delay normalization -/

/-- Claim C6 counterexample — the claim states every invalid or negative
delay value clamps to 0 and the result is always non-negative.  Only the
string branch clamps: a plain negative number is copied into both fields
unclamped, and a negative record field is taken unclamped as well. -/
theorem computedDelay_negative_passthrough :
    computedDelay (.num (-5)) = (-5, -5) ∧
    ¬(0 ≤ (computedDelay (.num (-5))).1) ∧
    computedDelay (.obj (.num (-3)) .undef) = (-3, 0) := by
  decide

/-- Every number supplied directly in the raw delay configuration (the
plain-number form or a numeric record field) is non-negative. -/
def delayNumsNonneg : DelayConfig → Prop
  | .num n => 0 ≤ n
  | .obj sf hf =>
    (∀ n, sf = .num n → 0 ≤ n) ∧ (∀ n, hf = .num n → 0 ≤ n)
  | _ => True

/-- Claim C6 amended — `computedDelay` always yields a `{show, hide}`
pair; string input parses and clamps to a non-negative integer (invalid
strings give 0), an input that is no number/string/object normalizes to
`{show: 0, hide: 0}`, non-numeric record fields fall back to 0, but
directly supplied numbers (plain or record fields) pass through
unclamped — so the pair is non-negative whenever those are. -/
theorem computedDelay_nonneg_amended (d : DelayConfig) (h : delayNumsNonneg d) :
    0 ≤ (computedDelay d).1 ∧ 0 ≤ (computedDelay d).2 ∧
    computedDelay .other = (0, 0) := by
  refine ⟨?_, ?_, rfl⟩
  · cases d with
    | num n => exact h
    | str s => simp [computedDelay]
    | obj sf hf =>
      cases sf with
      | num n => exact h.1 n rfl
      | str s => simp [computedDelay]
      | undef => simp [computedDelay]
    | other => simp [computedDelay]
  · cases d with
    | num n => exact h
    | str s => simp [computedDelay]
    | obj sf hf =>
      cases hf with
      | num n => exact h.2 n rfl
      | str s => simp [computedDelay]
      | undef => simp [computedDelay]
    | other => simp [computedDelay]

/-- Witness for `computedDelay_nonneg_amended` at the invalid string
`"abc"`. -/
theorem computedDelay_nonneg_amended_witness :
    0 ≤ (computedDelay (.str "abc")).1 ∧ 0 ≤ (computedDelay (.str "abc")).2 ∧
    computedDelay .other = (0, 0) :=
  computedDelay_nonneg_amended (.str "abc") trivial

/-! ### C7: trigger normalization -/

/-- Claim C7 counterexample — the claim states the canonical trigger
list never contains empty or duplicate tokens.  The source performs no
deduplication and the regex split keeps a boundary empty token, so the
single raw entry `" click click"` produces `["", "click", "click"]`. -/
theorem computedTriggers_dups_and_empty :
    computedTriggers [" click click"] = ["", "click", "click"] ∧
    "" ∈ computedTriggers [" click click"] ∧
    ¬(computedTriggers [" click click"]).Nodup := by
  decide

theorem collapseWsAux_mem (cs : List Char) :
    ∀ b : Bool, ∀ c ∈ collapseWsAux b cs, c = ' ' ∨ ¬c.isWhitespace := by
  induction cs with
  | nil => intro b c hc; simp [collapseWsAux] at hc
  | cons a cs ih =>
    intro b c hc
    simp only [collapseWsAux] at hc
    split at hc
    · split at hc
      · exact ih true c hc
      · rcases List.mem_cons.mp hc with h1 | h1
        · exact Or.inl h1
        · exact ih true c h1
    · next ha =>
        rcases List.mem_cons.mp hc with h1 | h1
        · subst h1; exact Or.inr ha
        · exact ih false c h1

theorem splitSpAux_mem (cs : List Char) :
    (∀ c ∈ (splitSpAux cs).1, c ≠ ' ' ∧ c ∈ cs) ∧
    (∀ t ∈ (splitSpAux cs).2, ∀ c ∈ t, c ≠ ' ' ∧ c ∈ cs) := by
  induction cs with
  | nil =>
    constructor
    · intro c hc; simp [splitSpAux] at hc
    · intro t ht; simp [splitSpAux] at ht
  | cons a cs ih =>
    by_cases ha : a = ' '
    · constructor
      · intro c hc; simp [splitSpAux, ha] at hc
      · intro t ht c hc
        simp only [splitSpAux, ha, if_true, ite_true, List.mem_cons] at ht
        rcases ht with rfl | h
        · have := ih.1 c hc
          exact ⟨this.1, List.mem_cons_of_mem _ this.2⟩
        · have := ih.2 t h c hc
          exact ⟨this.1, List.mem_cons_of_mem _ this.2⟩
    · constructor
      · intro c hc
        simp only [splitSpAux, ha, if_false, ite_false, List.mem_cons] at hc
        rcases hc with rfl | h
        · exact ⟨ha, List.mem_cons_self _ _⟩
        · have := ih.1 c h
          exact ⟨this.1, List.mem_cons_of_mem _ this.2⟩
      · intro t ht c hc
        simp only [splitSpAux, ha, if_false, ite_false] at ht
        have := ih.2 t ht c hc
        exact ⟨this.1, List.mem_cons_of_mem _ this.2⟩

/-- Every piece produced by the modelled `split(/\s+/)` is free of
whitespace characters. -/
theorem jsSplitWs_wsFree (s : String) :
    ∀ t ∈ jsSplitWs s, ∀ c ∈ t.data, ¬c.isWhitespace := by
  intro t ht c hc
  simp only [jsSplitWs, splitSpChars, List.mem_map, List.mem_cons] at ht
  obtain ⟨td, htd, rfl⟩ := ht
  replace hc : c ∈ td := hc
  rcases htd with rfl | h
  · have h1 := (splitSpAux_mem (collapseWs s.data)).1 c hc
    rcases collapseWsAux_mem s.data false c h1.2 with h2 | h2
    · exact absurd h2 h1.1
    · exact h2
  · have h1 := (splitSpAux_mem (collapseWs s.data)).2 td h c hc
    rcases collapseWsAux_mem s.data false c h1.2 with h2 | h2
    · exact absurd h2 h1.1
    · exact h2

/-- Claim C7 amended — `computedTriggers` lower-cases, drops falsy array
entries, joins on spaces and splits on runs of whitespace; duplicates
are retained and a boundary empty token can remain, but the produced
list is never empty and none of its tokens contains any whitespace
character. -/
theorem computedTriggers_amended (l : List String) :
    computedTriggers l ≠ [] ∧
    ∀ t ∈ computedTriggers l, ∀ c ∈ t.data, ¬c.isWhitespace := by
  refine ⟨?_, jsSplitWs_wsFree _⟩
  simp [computedTriggers, jsSplitWs, splitSpChars]

/-- Witness for `computedTriggers_amended` at `["click hover"]` and its
token `"click"`. -/
theorem computedTriggers_amended_witness :
    computedTriggers ["click hover"] ≠ [] ∧
    ∀ c ∈ ("click" : String).data, ¬c.isWhitespace :=
  ⟨(computedTriggers_amended ["click hover"]).1,
   (computedTriggers_amended ["click hover"]).2 "click" (by decide)⟩

/-! ### C8: blur fully dismisses -/

/-- triggers `"focus blur"`, no delay, a string target. -/
def blurFocusCfg : Config :=
  { triggers := ["focus blur"], delay := .num 0, target := .str "t" }

/-- A world with the overlay open and an arbitrary active-trigger
state. -/
def openWorld (a : ActiveTrigger) : World :=
  { ctrl := { activeTrigger := a, tip := some ⟨false⟩, localShow := true } }

/-- Claim C8 — with `blur` in the canonical trigger set, a `focusout`
whose target/relatedTarget pair is not contained in the host or the open
overlay makes the leave handler clear `click` and `hover` as well as
`focus`; with no hide delay the overlay is told to hide (`$_tip.hide()`
is invoked and the transient state is reset) regardless of which of
those triggers were previously active (`manual` is never set by any
handler: the only assignment to it in the source is commented out). -/
theorem blur_focusout_clears_all_triggers (a : ActiveTrigger)
    (h : a.manual = false) :
    (handleEvent blurFocusCfg goodEnv { type := .focusout }
        (openWorld a)).ctrl.activeTrigger = ⟨false, false, false, false⟩ ∧
    (handleEvent blurFocusCfg goodEnv { type := .focusout }
        (openWorld a)).ctrl.tip = some ⟨true⟩ ∧
    (handleEvent blurFocusCfg goodEnv { type := .focusout }
        (openWorld a)).ctrl.hoverState = .hnone := by
  obtain ⟨hv, cl, fc, mn⟩ := a
  replace h : mn = false := h
  subst h
  cases hv <;> cases cl <;> cases fc <;> decide

/-- Witness for `blur_focusout_clears_all_triggers` with hover, click
and focus all previously active. -/
theorem blur_focusout_clears_all_triggers_witness :
    (handleEvent blurFocusCfg goodEnv { type := .focusout }
        (openWorld ⟨true, true, true, false⟩)).ctrl.activeTrigger
      = ⟨false, false, false, false⟩ ∧
    (handleEvent blurFocusCfg goodEnv { type := .focusout }
        (openWorld ⟨true, true, true, false⟩)).ctrl.tip = some ⟨true⟩ ∧
    (handleEvent blurFocusCfg goodEnv { type := .focusout }
        (openWorld ⟨true, true, true, false⟩)).ctrl.hoverState = .hnone :=
  blur_focusout_clears_all_triggers ⟨true, true, true, false⟩ rfl

/-! ### C9: aria-describedby round-trip -/

/-- Claim C9 counterexample — the claim states the round trip restores
the attribute to exactly its pre-show value for every pre-show value.
A pre-show value with non-canonical whitespace, `"a  b"` (two spaces),
comes back as `"a b"`: the split/join pipeline normalizes the
separators. -/
theorem aria_roundtrip_not_exact :
    removeAriaDescribedby (computedId 1)
        (some (addAriaDescribedby (computedId 1) (some "a  b"))) = some "a b" ∧
    some ("a b" : String) ≠ some ("a  b" : String) := by
  decide

theorem ne_space_of_not_ws (c : Char) (h : ¬c.isWhitespace) : c ≠ ' ' := by
  intro he
  apply h
  rw [he]
  decide

theorem mem_of_headOpt {cs : List Char} {c : Char} (h : cs.head? = some c) :
    c ∈ cs := by
  cases cs with
  | nil => simp at h
  | cons a l =>
    simp only [List.head?_cons, Option.some_inj] at h
    subst h
    exact List.mem_cons_self _ _

theorem mem_of_getLastOpt {cs : List Char} {c : Char} (h : cs.getLast? = some c) :
    c ∈ cs := by
  obtain ⟨hne, rfl⟩ := List.mem_getLast?_eq_getLast (Option.mem_def.mpr h)
  exact List.getLast_mem hne

theorem dropWhile_ws_head (cs : List Char)
    (h : ∀ c, cs.head? = some c → ¬c.isWhitespace) :
    cs.dropWhile Char.isWhitespace = cs := by
  cases cs with
  | nil => rfl
  | cons a l =>
    have ha := h a rfl
    simp [List.dropWhile_cons, ha]

theorem jsTrimChars_eq_self (cs : List Char)
    (h1 : ∀ c, cs.head? = some c → ¬c.isWhitespace)
    (h2 : ∀ c, cs.getLast? = some c → ¬c.isWhitespace) :
    jsTrimChars cs = cs := by
  unfold jsTrimChars
  rw [dropWhile_ws_head cs h1]
  have d2 : cs.reverse.dropWhile Char.isWhitespace = cs.reverse := by
    apply dropWhile_ws_head
    intro c hc
    rw [List.head?_reverse] at hc
    exact h2 c hc
  rw [d2, List.reverse_reverse]

theorem jsTrimChars_allNonWs (cs : List Char) (h : ∀ c ∈ cs, ¬c.isWhitespace) :
    jsTrimChars cs = cs :=
  jsTrimChars_eq_self cs (fun c hc => h c (mem_of_headOpt hc))
    (fun c hc => h c (mem_of_getLastOpt hc))

theorem dropWhile_ws_space_cons (cs : List Char) :
    (' ' :: cs).dropWhile Char.isWhitespace = cs.dropWhile Char.isWhitespace := by
  have hsp : (' ').isWhitespace = true := by decide
  rw [List.dropWhile_cons, hsp]
  simp

theorem jsTrimChars_space_cons (cs : List Char) :
    jsTrimChars (' ' :: cs) = jsTrimChars cs := by
  unfold jsTrimChars
  rw [dropWhile_ws_space_cons]

theorem splitSpAux_append_spFree :
    ∀ t r : List Char, (∀ c ∈ t, c ≠ ' ') →
      splitSpAux (t ++ r) = (t ++ (splitSpAux r).1, (splitSpAux r).2) := by
  intro t
  induction t with
  | nil => intro r _; rfl
  | cons c t ih =>
    intro r h
    have hc : c ≠ ' ' := h c (List.mem_cons_self _ _)
    have ihr := ih r (fun d hd => h d (List.mem_cons_of_mem _ hd))
    show splitSpAux (c :: (t ++ r)) = ((c :: t) ++ (splitSpAux r).1, (splitSpAux r).2)
    simp only [splitSpAux, ihr, hc, if_false, ite_false, List.cons_append]

theorem splitSpChars_spFree (t : List Char) (h : ∀ c ∈ t, c ≠ ' ') :
    splitSpChars t = [t] := by
  have h1 := splitSpAux_append_spFree t [] h
  simp only [List.append_nil, splitSpAux] at h1
  simp [splitSpChars, h1]

theorem splitSpChars_join :
    ∀ ts : List (List Char), ts ≠ [] → (∀ t ∈ ts, ∀ c ∈ t, c ≠ ' ') →
      splitSpChars (joinSpChars ts) = ts := by
  intro ts
  induction ts with
  | nil => intro hne _; exact absurd rfl hne
  | cons t ts ih =>
    intro _ h
    cases ts with
    | nil => exact splitSpChars_spFree t (h t (List.mem_cons_self _ _))
    | cons t2 ts2 =>
      have hA := splitSpAux_append_spFree t (' ' :: joinSpChars (t2 :: ts2))
        (h t (List.mem_cons_self _ _))
      have ih2 := ih (by simp) (fun u hu c hc => h u (List.mem_cons_of_mem _ hu) c hc)
      show splitSpChars (t ++ ' ' :: joinSpChars (t2 :: ts2)) = t :: t2 :: ts2
      have hstep : splitSpChars (t ++ ' ' :: joinSpChars (t2 :: ts2))
          = t :: splitSpChars (joinSpChars (t2 :: ts2)) := by
        simp only [splitSpChars, hA]
        simp [splitSpAux]
      rw [hstep, ih2]

theorem collapseWsAux_wsFree_append :
    ∀ t r : List Char, (∀ c ∈ t, ¬c.isWhitespace) →
      collapseWsAux false (t ++ r) = t ++ collapseWsAux false r := by
  intro t
  induction t with
  | nil => intro r _; rfl
  | cons c t ih =>
    intro r h
    have hc := h c (List.mem_cons_self _ _)
    show collapseWsAux false (c :: (t ++ r)) = c :: (t ++ collapseWsAux false r)
    rw [← ih r (fun d hd => h d (List.mem_cons_of_mem _ hd))]
    simp [collapseWsAux, hc]

theorem collapseWs_allNonWs (cs : List Char) (h : ∀ c ∈ cs, ¬c.isWhitespace) :
    collapseWs cs = cs := by
  have h1 := collapseWsAux_wsFree_append cs [] h
  simpa [collapseWs, collapseWsAux] using h1

theorem collapseWsAux_space_cons (r : List Char)
    (h : ∀ c, r.head? = some c → ¬c.isWhitespace) :
    collapseWsAux false (' ' :: r) = ' ' :: collapseWsAux false r := by
  cases r with
  | nil => rfl
  | cons c r' =>
    have hc := h c rfl
    simp [collapseWsAux, hc]

/-- The canonical-token property at the character level: each piece is a
non-empty whitespace-free character list. -/
def canonTokens (ts : List (List Char)) : Prop :=
  ∀ t ∈ ts, t ≠ [] ∧ ∀ c ∈ t, ¬c.isWhitespace

theorem joinSpChars_ne_nil (t : List Char) (ts : List (List Char)) (h : t ≠ []) :
    joinSpChars (t :: ts) ≠ [] := by
  cases ts <;> cases t <;> simp_all [joinSpChars]

theorem joinSpChars_head (t : List Char) (ts : List (List Char)) (h : t ≠ []) :
    (joinSpChars (t :: ts)).head? = t.head? := by
  cases t with
  | nil => exact absurd rfl h
  | cons c t' => cases ts <;> rfl

theorem collapseWs_join :
    ∀ ts : List (List Char), canonTokens ts →
      collapseWs (joinSpChars ts) = joinSpChars ts := by
  intro ts
  induction ts with
  | nil => intro _; rfl
  | cons t ts ih =>
    intro h
    obtain ⟨htne, htws⟩ := h t (List.mem_cons_self _ _)
    have hts : canonTokens ts := fun u hu => h u (List.mem_cons_of_mem _ hu)
    cases ts with
    | nil => exact collapseWs_allNonWs t htws
    | cons t2 ts2 =>
      obtain ⟨ht2ne, _⟩ := hts t2 (List.mem_cons_self _ _)
      show collapseWsAux false (t ++ ' ' :: joinSpChars (t2 :: ts2))
        = t ++ ' ' :: joinSpChars (t2 :: ts2)
      rw [collapseWsAux_wsFree_append t _ htws]
      rw [collapseWsAux_space_cons _ ?hr]
      · rw [show collapseWsAux false (joinSpChars (t2 :: ts2))
            = joinSpChars (t2 :: ts2) from ih hts]
      case hr =>
        intro c hc
        rw [joinSpChars_head t2 ts2 ht2ne] at hc
        exact (hts t2 (List.mem_cons_self _ _)).2 c (mem_of_headOpt hc)

theorem joinSpChars_last_not_ws :
    ∀ ts : List (List Char), canonTokens ts →
      ∀ c, (joinSpChars ts).getLast? = some c → ¬c.isWhitespace := by
  intro ts
  induction ts with
  | nil => intro _ c hc; simp [joinSpChars] at hc
  | cons t ts ih =>
    intro h c hc
    obtain ⟨htne, htws⟩ := h t (List.mem_cons_self _ _)
    have hts : canonTokens ts := fun u hu => h u (List.mem_cons_of_mem _ hu)
    cases ts with
    | nil => exact htws c (mem_of_getLastOpt hc)
    | cons t2 ts2 =>
      have hne2 : joinSpChars (t2 :: ts2) ≠ [] :=
        joinSpChars_ne_nil t2 ts2 (hts t2 (List.mem_cons_self _ _)).1
      rw [show joinSpChars (t :: t2 :: ts2) = t ++ ' ' :: joinSpChars (t2 :: ts2)
            from rfl,
          List.getLast?_append_of_ne_nil _ (by simp),
          show (' ' :: joinSpChars (t2 :: ts2))
              = [' '] ++ joinSpChars (t2 :: ts2) from rfl,
          List.getLast?_append_of_ne_nil _ hne2] at hc
      exact ih hts c hc

theorem jsTrimChars_join (ts : List (List Char)) (hne : ts ≠ [])
    (h : canonTokens ts) : jsTrimChars (joinSpChars ts) = joinSpChars ts := by
  cases ts with
  | nil => exact absurd rfl hne
  | cons t ts =>
    obtain ⟨htne, htws⟩ := h t (List.mem_cons_self _ _)
    apply jsTrimChars_eq_self
    · intro c hc
      rw [joinSpChars_head t ts htne] at hc
      exact htws c (mem_of_headOpt hc)
    · exact joinSpChars_last_not_ws (t :: ts) h

/-- The canonical-id property: a non-empty whitespace-free string. -/
def canonId (t : String) : Prop :=
  t.data ≠ [] ∧ ∀ c ∈ t.data, ¬c.isWhitespace

theorem canonTokens_map {ids : List String} (h : ∀ t ∈ ids, canonId t) :
    canonTokens (ids.map String.data) := by
  intro td htd
  rw [List.mem_map] at htd
  obtain ⟨t, ht, rfl⟩ := htd
  exact h t ht

theorem map_mk_map_data (l : List String) :
    (l.map String.data).map (fun d => String.mk d) = l := by
  rw [List.map_map]
  have h2 : ((fun d => String.mk d) ∘ String.data) = id := funext fun t => rfl
  rw [h2, List.map_id]

theorem jsSplitWs_joinSp (ids : List String) (hne : ids ≠ [])
    (h : ∀ t ∈ ids, canonId t) : jsSplitWs (jsJoinSp ids) = ids := by
  have hmapne : ids.map String.data ≠ [] := by
    cases ids with
    | nil => exact absurd rfl hne
    | cons t ts => simp
  unfold jsSplitWs jsJoinSp
  rw [show (String.mk (joinSpChars (ids.map String.data))).data
        = joinSpChars (ids.map String.data) from rfl]
  rw [collapseWs_join _ (canonTokens_map h)]
  rw [splitSpChars_join _ hmapne
    (fun td htd c hc =>
      ne_space_of_not_ws c ((canonTokens_map h td htd).2 c hc))]
  exact map_mk_map_data ids

theorem jsTrim_joinSp (ids : List String) (hne : ids ≠ [])
    (h : ∀ t ∈ ids, canonId t) : jsTrim (jsJoinSp ids) = jsJoinSp ids := by
  have hmapne : ids.map String.data ≠ [] := by
    cases ids with
    | nil => exact absurd rfl hne
    | cons t ts => simp
  unfold jsTrim jsJoinSp
  rw [show (String.mk (joinSpChars (ids.map String.data))).data
        = joinSpChars (ids.map String.data) from rfl]
  rw [jsTrimChars_join _ hmapne (canonTokens_map h)]

theorem jsJoinSp_ne_empty (ids : List String) (hne : ids ≠ [])
    (h : ∀ t ∈ ids, canonId t) : jsJoinSp ids ≠ "" := by
  cases ids with
  | nil => exact absurd rfl hne
  | cons t ts =>
    have hjne : joinSpChars ((t :: ts).map String.data) ≠ [] :=
      joinSpChars_ne_nil t.data (ts.map String.data)
        (h t (List.mem_cons_self _ _)).1
    intro he
    apply hjne
    have hd := congrArg String.data he
    simpa using hd

/-- Claim C9 amended — `addAriaDescribedby` appends exactly the
controller's id and `removeAriaDescribedby` restores exactly the
pre-show attribute value, provided the pre-show value is in canonical
form — absent, or a single-space-separated list of non-empty
whitespace-free ids none of which is the controller's id; for
non-canonical whitespace the pipeline normalizes separators (the
counterexample), and a pre-show value already containing the
controller's id loses it. -/
theorem aria_roundtrip_amended (cid : String) (ids : List String)
    (hcid : canonId cid)
    (hids : ∀ t ∈ ids, canonId t ∧ t ≠ cid) :
    (addAriaDescribedby cid none = cid ∧
     removeAriaDescribedby cid (some cid) = none) ∧
    (ids ≠ [] →
      addAriaDescribedby cid (some (jsJoinSp ids)) = jsJoinSp (ids ++ [cid]) ∧
      removeAriaDescribedby cid (some (jsJoinSp (ids ++ [cid])))
        = some (jsJoinSp ids)) := by
  obtain ⟨hcne, hcws⟩ := hcid
  have hsplitcid : jsSplitWs cid = [cid] := by
    unfold jsSplitWs
    rw [collapseWs_allNonWs cid.data hcws]
    rw [splitSpChars_spFree cid.data
      (fun c hc => ne_space_of_not_ws c (hcws c hc))]
    rfl
  constructor
  · constructor
    · show jsTrim (jsJoinSp (jsSplitWs "" ++ [cid])) = cid
      rw [show jsJoinSp (jsSplitWs "" ++ [cid])
            = String.mk (' ' :: cid.data) from rfl]
      show String.mk (jsTrimChars (' ' :: cid.data)) = cid
      rw [jsTrimChars_space_cons, jsTrimChars_allNonWs cid.data hcws]
    · have hfil : ([cid].filter (fun d => d ≠ cid)) = ([] : List String) := by
        simp
      simp only [removeAriaDescribedby, Option.getD_some, hsplitcid, hfil]
      rfl
  · intro hne
    have hcanonIds : ∀ t ∈ ids, canonId t := fun t ht => (hids t ht).1
    have hcanonAll : ∀ t ∈ ids ++ [cid], canonId t := by
      intro t ht
      rcases List.mem_append.mp ht with h1 | h1
      · exact hcanonIds t h1
      · simp only [List.mem_singleton] at h1
        subst h1
        exact ⟨hcne, hcws⟩
    constructor
    · show jsTrim (jsJoinSp (jsSplitWs (jsJoinSp ids) ++ [cid]))
        = jsJoinSp (ids ++ [cid])
      rw [jsSplitWs_joinSp ids hne hcanonIds]
      exact jsTrim_joinSp (ids ++ [cid]) (by simp) hcanonAll
    · have hsplit2 : jsSplitWs (jsJoinSp (ids ++ [cid])) = ids ++ [cid] :=
        jsSplitWs_joinSp _ (by simp) hcanonAll
      have hfil2 : (ids ++ [cid]).filter (fun d => d ≠ cid) = ids := by
        rw [List.filter_append]
        have hf1 : ids.filter (fun d => d ≠ cid) = ids :=
          List.filter_eq_self.mpr (fun a ha => by simpa using (hids a ha).2)
        have hf2 : ([cid].filter (fun d => d ≠ cid)) = ([] : List String) := by
          simp
        rw [hf1, hf2, List.append_nil]
      simp only [removeAriaDescribedby, Option.getD_some, hsplit2, hfil2]
      rw [jsTrim_joinSp ids hne hcanonIds]
      have hne2 := jsJoinSp_ne_empty ids hne hcanonIds
      simp [hne2]

/-- Witness for `aria_roundtrip_amended` with the concrete controller
id `__bv_tooltip_1__` and the pre-existing ids `["a", "b"]`. -/
theorem aria_roundtrip_amended_witness :
    (addAriaDescribedby (computedId 1) none = computedId 1 ∧
     removeAriaDescribedby (computedId 1) (some (computedId 1)) = none) ∧
    (addAriaDescribedby (computedId 1) (some (jsJoinSp ["a", "b"]))
        = jsJoinSp (["a", "b"] ++ [computedId 1]) ∧
     removeAriaDescribedby (computedId 1)
        (some (jsJoinSp (["a", "b"] ++ [computedId 1])))
        = some (jsJoinSp ["a", "b"])) :=
  ⟨(aria_roundtrip_amended (computedId 1) ["a", "b"]
      (by simp only [canonId]; decide) (by simp only [canonId]; decide)).1,
   (aria_roundtrip_amended (computedId 1) ["a", "b"]
      (by simp only [canonId]; decide) (by simp only [canonId]; decide)).2
     (by decide)⟩

end BVTooltip
